import Mathlib

/-!
Verification of the money_report personal-finance ledger core.

The definitions below are a shallow embedding of `src/domain.py` and
`src/services.py`: Python `float` amounts become `Rat`, Python strings become
`String` compared code-point-wise, mutable service methods become functions
returning the error-or-result together with the resulting store, and the
UUID generator is threaded as an explicit `newId` argument.  Python string
primitives (`<`, slicing, `startswith`, `in`, `sorted`) are modelled by
executable char-list functions so that every definition evaluates by `decide`.
-/

namespace MoneyReport

/-- Lexicographic comparison of char lists, mirroring Python's `<` on strings
(code-point lexicographic). -/
def charListLt : List Char → List Char → Bool
  | [], [] => false
  | [], _ :: _ => true
  | _ :: _, [] => false
  | a :: as, b :: bs => if a < b then true else if b < a then false else charListLt as bs

/-- Python `a < b` on strings. -/
def strLt (a b : String) : Bool := charListLt a.data b.data

/-- Python `a <= b` on strings (total order: not `b < a`). -/
def strLe (a b : String) : Bool := !(strLt b a)

/-- Python `s[:n]` (first `n` code points). -/
def pyTake (s : String) (n : Nat) : String := ⟨s.data.take n⟩

/-- Python `s.startswith(p)`. -/
def pyStartsWith (s p : String) : Bool := p.data.isPrefixOf s.data

/-- Python `pat in s` (substring containment on code points). -/
def containsSub (s pat : String) : Bool :=
  s.data.tails.any (fun suf => pat.data.isPrefixOf suf)

/-- Insert `x` into `l` before the first element `y` with `le x y`;
building block of the stable sort below. -/
def insertLe (le : α → α → Bool) (x : α) : List α → List α
  | [] => [x]
  | y :: ys => if le x y then x :: y :: ys else y :: insertLe le x ys

/-- Stable insertion sort, modelling Python's stable `sorted(key=...)`:
for a total preorder `le` every stable sort produces the same list. -/
def sortLe (le : α → α → Bool) : List α → List α
  | [] => []
  | a :: l => insertLe le a (sortLe le l)

/-- Error taxonomy of the spec for the `ValueError`s raised by
`src/domain.py` and `src/services.py`. -/
inductive ServiceError where
  | invalidAmount
  | invalidKind
  | invalidDate
  | negativeAmount
  | accountNotFound
  | wrongAccountType
deriving DecidableEq

/-- `src/domain.py` `Transaction` (amounts as `Rat`). -/
structure Transaction where
  id : String
  account_id : String
  type : String
  amount : Rat
  category : String
  memo : String
  date : String
  item : String
deriving DecidableEq

/-- `src/domain.py` `ValuationRecord`. -/
structure ValuationRecord where
  id : String
  account_id : String
  evaluated_amount : Rat
  evaluation_date : String
  memo : String
  transaction_type : String
deriving DecidableEq

/-- `src/domain.py` `TradePair`. -/
structure TradePair where
  buy_valuation : ValuationRecord
  sell_valuation : ValuationRecord
deriving DecidableEq

/-- `src/domain.py` `Account`. -/
structure Account where
  id : String
  name : String
  type : String
  color : String
  opening_balance : Rat
  status : String
  image_path : String
  transactions : List Transaction
  valuations : List ValuationRecord
  purchase_amount : Rat
  cash_holding : Rat
  evaluated_amount : Rat
  last_valuation_date : String
deriving DecidableEq

/-- Python `s.replace("Z", "+00:00")`, as applied by the two `validate`
methods before date parsing. -/
def replaceZChars : List Char → List Char
  | [] => []
  | c :: rest =>
    if c = 'Z' then '+' :: '0' :: '0' :: ':' :: '0' :: '0' :: replaceZChars rest
    else c :: replaceZChars rest

/-- Two-digit decimal value of two digit characters. -/
def digits2 (a b : Char) : Nat := (a.toNat - 48) * 10 + (b.toNat - 48)

/-- Offset part accepted after a time: empty or `±HH:MM`. -/
def isoOffsetChars : List Char → Bool
  | [] => true
  | s :: h1 :: h2 :: ':' :: m1 :: m2 :: [] =>
    (s = '+' || s = '-') && h1.isDigit && h2.isDigit && m1.isDigit && m2.isDigit
  | _ => false

/-- Time part accepted after a date: empty or `THH:MM:SS` plus offset. -/
def isoTimeChars : List Char → Bool
  | [] => true
  | 'T' :: h1 :: h2 :: ':' :: n1 :: n2 :: ':' :: s1 :: s2 :: rest =>
    h1.isDigit && h2.isDigit && n1.isDigit && n2.isDigit && s1.isDigit && s2.isDigit
      && decide (digits2 h1 h2 ≤ 23) && decide (digits2 n1 n2 ≤ 59)
      && decide (digits2 s1 s2 ≤ 59) && isoOffsetChars rest
  | _ => false

/-- Modelled from the spec: the Python standard library `datetime.fromisoformat`
(library code, not part of this repository).  The spec only requires that the
date "parses as ISO-8601 (accept a trailing literal Z as UTC offset)"; we accept
`YYYY-MM-DD`, optionally followed by `THH:MM:SS` and an offset.  No claim
depends on the details of this parser: both `validate` methods test their
amount guard first. -/
def fromisoformatOk (s : String) : Bool :=
  match s.data with
  | y1 :: y2 :: y3 :: y4 :: '-' :: m1 :: m2 :: '-' :: d1 :: d2 :: rest =>
    y1.isDigit && y2.isDigit && y3.isDigit && y4.isDigit
      && m1.isDigit && m2.isDigit && d1.isDigit && d2.isDigit
      && decide (1 ≤ digits2 m1 m2) && decide (digits2 m1 m2 ≤ 12)
      && decide (1 ≤ digits2 d1 d2) && decide (digits2 d1 d2 ≤ 31)
      && isoTimeChars rest
  | _ => false

/-- `Transaction.validate` in `src/domain.py`: amount must be strictly
positive, type must be income/expense, date must parse (after replacing a
trailing `Z`). -/
def Transaction.validate (t : Transaction) : Except ServiceError Unit :=
  if t.amount ≤ 0 then .error .invalidAmount
  else if !(t.type == "income" || t.type == "expense") then .error .invalidKind
  else if !fromisoformatOk ⟨replaceZChars t.date.data⟩ then .error .invalidDate
  else .ok ()

/-- `ValuationRecord.validate` in `src/domain.py`: amount must be
non-negative, date must parse. -/
def ValuationRecord.validate (v : ValuationRecord) : Except ServiceError Unit :=
  if v.evaluated_amount < 0 then .error .invalidAmount
  else if !fromisoformatOk ⟨replaceZChars v.evaluation_date.data⟩ then .error .invalidDate
  else .ok ()

/-- Python `min(x :: xs, key=...)` with a string key: keeps the first element,
replacing only on a strictly smaller key, hence returns the first minimum. -/
def pyMinBy (key : α → String) (x : α) (xs : List α) : α :=
  xs.foldl (fun acc y => if strLt (key y) (key acc) then y else acc) x

/-- Python `max(x :: xs, key=...)` with a string key: replaces only on a
strictly larger key, hence returns the first maximum. -/
def pyMaxBy (key : α → String) (x : α) (xs : List α) : α :=
  xs.foldl (fun acc y => if strLt (key acc) (key y) then y else acc) x

/-- `Account.latest_valuation` in `src/domain.py`:
`max(self.valuations, key=lambda v: v.evaluation_date)`, or `None` if empty. -/
def Account.latest_valuation (a : Account) : Option ValuationRecord :=
  match a.valuations with
  | [] => none
  | v :: vs => some (pyMaxBy (fun r => r.evaluation_date) v vs)

/-- `Account.return_rate` in `src/domain.py`.  Note the Python `elif`: the
generic `purchase_amount` branch is evaluated only when the name does NOT
contain the real-estate marker `"부동산"`.  Inside the truthy-valuations guard
`current_value` starts as the legacy `evaluated_amount` and is overwritten by
the latest valuation when the list is non-empty, which it always is there. -/
def Account.return_rate (a : Account) : Rat :=
  if a.type == "투자" && !a.valuations.isEmpty then
    if containsSub a.name "부동산" then
      match a.valuations.filter (fun v => v.transaction_type == "buy"),
            a.valuations.filter (fun v => v.transaction_type == "sell") with
      | b :: bs, s :: ss =>
        let first_buy := pyMinBy (fun v => v.evaluation_date) b bs
        let last_sell := pyMaxBy (fun v => v.evaluation_date) s ss
        if first_buy.evaluated_amount ≠ 0 then
          (last_sell.evaluated_amount - first_buy.evaluated_amount)
            / first_buy.evaluated_amount * 100
        else 0
      | _, _ => 0
    else
      if a.purchase_amount ≠ 0 then
        let current_value :=
          match a.latest_valuation with
          | some v => v.evaluated_amount
          | none => a.evaluated_amount
        (current_value - a.purchase_amount) / a.purchase_amount * 100
      else 0
  else 0

/-- `LedgerRepository.get_account`: the store is the dict's insertion-ordered
account list, keyed by `Account.id`. -/
def getAccount (accounts : List Account) (account_id : String) : Option Account :=
  accounts.find? (fun a => a.id == account_id)

/-- Replace the account whose id matches `account_id` by `f` of it
(dict-style in-place update; a no-op when the id is absent). -/
def mapUpdateById (accounts : List Account) (account_id : String)
    (f : Account → Account) : List Account :=
  accounts.map (fun a => if a.id == account_id then f a else a)

/-- `LedgerRepository.update_account`: `self.accounts[account.id] = account`
(replace when the key exists, append otherwise — Python dict assignment). -/
def upsertAccount (accounts : List Account) (acc : Account) : List Account :=
  if accounts.any (fun a => a.id == acc.id) then
    mapUpdateById accounts acc.id (fun _ => acc)
  else accounts ++ [acc]

/-- `LedgerService.add_transaction` composed with
`LedgerRepository.add_transaction` (`src/services.py`): guard `amount < 0`,
then the kind, then append to the account's transaction list if the account
exists (silent no-op otherwise). -/
def add_transaction (accounts : List Account) (account_id type_ : String)
    (amount : Rat) (category memo date newId : String) :
    Except ServiceError Transaction × List Account :=
  if amount < 0 then (.error .negativeAmount, accounts)
  else if !(type_ == "income" || type_ == "expense") then (.error .invalidKind, accounts)
  else
    let txn : Transaction := ⟨newId, account_id, type_, amount, category, memo, date, ""⟩
    (.ok txn,
      mapUpdateById accounts account_id
        (fun a => { a with transactions := a.transactions ++ [txn] }))

/-- `LedgerService.add_valuation` (`src/services.py`): account must exist and
be of investment type; appends the record and mirrors its amount and
date-only date into the two legacy fields. -/
def add_valuation (accounts : List Account) (account_id : String) (amount : Rat)
    (date memo transaction_type newId : String) :
    Except ServiceError ValuationRecord × List Account :=
  match getAccount accounts account_id with
  | none => (.error .accountNotFound, accounts)
  | some account =>
    if account.type ≠ "투자" then (.error .wrongAccountType, accounts)
    else
      let valuation : ValuationRecord :=
        ⟨newId, account_id, amount, date, memo, transaction_type⟩
      let account' := { account with
        valuations := account.valuations ++ [valuation],
        evaluated_amount := amount,
        last_valuation_date := pyTake date 10 }
      (.ok valuation, upsertAccount accounts account')

/-- Account mutation performed by `delete_valuation` once the account is
found: keep the records whose id differs, then reset the legacy mirror
fields from `latest_valuation` of the remaining list, or to `0.0` / `""`
when it is empty. -/
def deleteValuationUpdate (account : Account) (valuation_id : String) : Account :=
  let account' := { account with
    valuations := account.valuations.filter (fun v => !(v.id == valuation_id)) }
  match account'.latest_valuation with
  | some latest => { account' with
      evaluated_amount := latest.evaluated_amount,
      last_valuation_date := pyTake latest.evaluation_date 10 }
  | none => { account' with evaluated_amount := 0, last_valuation_date := "" }

/-- `LedgerService.delete_valuation` (`src/services.py`): account must exist;
then apply `deleteValuationUpdate` and store the result. -/
def delete_valuation (accounts : List Account) (account_id valuation_id : String) :
    Except ServiceError Unit × List Account :=
  match getAccount accounts account_id with
  | none => (.error .accountNotFound, accounts)
  | some account => (.ok (), upsertAccount accounts (deleteValuationUpdate account valuation_id))

/-- `LedgerService.get_valuations` (`src/services.py`): the account's
valuations sorted ascending (stably) by `evaluation_date`; `[]` if the
account is missing. -/
def get_valuations (accounts : List Account) (account_id : String) :
    List ValuationRecord :=
  match getAccount accounts account_id with
  | none => []
  | some account =>
    sortLe (fun a b => strLe a.evaluation_date b.evaluation_date) account.valuations

/-- Loop state of `LedgerService.get_trade_pairs`: the output list and the
FIFO queue of pending (unpaired) buys. -/
structure PairState where
  pairs : List TradePair
  unpaired_buys : List ValuationRecord
deriving DecidableEq

/-- One iteration of the `get_trade_pairs` loop (`src/services.py`):
a buy is queued; a sell pops the oldest pending buy (dropped when none);
a valuation peeks at the oldest pending buy, removes the first existing pair
with that buy's id as buy leg, and appends the new pseudo-pair. -/
def tradeStep (s : PairState) (v : ValuationRecord) : PairState :=
  if v.transaction_type == "buy" then
    { s with unpaired_buys := s.unpaired_buys ++ [v] }
  else if v.transaction_type == "sell" then
    match s.unpaired_buys with
    | [] => s
    | b :: rest => { pairs := s.pairs ++ [⟨b, v⟩], unpaired_buys := rest }
  else if v.transaction_type == "valuation" then
    match s.unpaired_buys with
    | [] => s
    | b :: rest =>
      { pairs := (s.pairs.eraseP (fun p => p.buy_valuation.id == b.id)) ++ [⟨b, v⟩],
        unpaired_buys := b :: rest }
  else s

/-- `LedgerService.get_trade_pairs` (`src/services.py`): fold the loop body
over the date-sorted valuations. -/
def get_trade_pairs (accounts : List Account) (account_id : String) :
    List TradePair :=
  ((get_valuations accounts account_id).foldl tradeStep ⟨[], []⟩).pairs

/-- Bucket of one month of `monthly_income_breakdown`. -/
structure MonthBucket where
  savings : Rat
  interest : Rat
  expense : Rat
deriving DecidableEq

/-- `defaultdict` update: add to the bucket at the first occurrence of `ym`,
creating a fresh zero bucket at the end when the key is absent. -/
def bump (data : List (String × MonthBucket)) (ym : String)
    (f : MonthBucket → MonthBucket) : List (String × MonthBucket) :=
  match data with
  | [] => [(ym, f ⟨0, 0, 0⟩)]
  | (k, b) :: rest =>
    if k == ym then (k, f b) :: rest else (k, b) :: bump rest ym f

/-- Body of the transaction loop of `LedgerService.monthly_income_breakdown`
(`src/services.py`): skip months outside the optional year filter, then route
income/저축 to savings, income/이자 to interest, expense/지출 to expense,
ignoring every other combination. -/
def breakdownStep (year : Option String) (data : List (String × MonthBucket))
    (t : Transaction) : List (String × MonthBucket) :=
  let year_month := pyTake t.date 7
  if (match year with | some y => !(pyStartsWith year_month y) | none => false) then data
  else if t.type == "income" then
    if t.category == "저축" then
      bump data year_month (fun b => { b with savings := b.savings + t.amount })
    else if t.category == "이자" then
      bump data year_month (fun b => { b with interest := b.interest + t.amount })
    else data
  else if t.type == "expense" && t.category == "지출" then
    bump data year_month (fun b => { b with expense := b.expense + t.amount })
  else data

/-- `LedgerService.monthly_income_breakdown` (`src/services.py`): loop over
the cash accounts' transactions, then `dict(sorted(...))` i.e. sort the
buckets ascending by month key. -/
def monthly_income_breakdown (accounts : List Account) (year : Option String) :
    List (String × MonthBucket) :=
  let data := accounts.foldl
    (fun d a => if a.type == "현금" then a.transactions.foldl (breakdownStep year) d else d)
    []
  sortLe (fun a b => strLe a.1 b.1) data

/-- Spec-side: does the transaction pass the optional year filter
("months starting with the given year prefix")? -/
def passesYear (year : Option String) (t : Transaction) : Bool :=
  match year with
  | some y => pyStartsWith (pyTake t.date 7) y
  | none => true

/-- Spec-side: sum of income amounts with the savings category in month `m`. -/
def savingsSum (year : Option String) (ts : List Transaction) (m : String) : Rat :=
  ((ts.filter (fun t => passesYear year t && (pyTake t.date 7 == m)
      && (t.type == "income") && (t.category == "저축"))).map (fun t => t.amount)).sum

/-- Spec-side: sum of income amounts with the interest category in month `m`. -/
def interestSum (year : Option String) (ts : List Transaction) (m : String) : Rat :=
  ((ts.filter (fun t => passesYear year t && (pyTake t.date 7 == m)
      && (t.type == "income") && (t.category == "이자"))).map (fun t => t.amount)).sum

/-- Spec-side: sum of expense amounts with the spending category in month `m`. -/
def expenseSum (year : Option String) (ts : List Transaction) (m : String) : Rat :=
  ((ts.filter (fun t => passesYear year t && (pyTake t.date 7 == m)
      && (t.type == "expense") && (t.category == "지출"))).map (fun t => t.amount)).sum

/-- Spec-side: the month bucket the claim predicts for month `m`. -/
def specBucket (year : Option String) (ts : List Transaction) (m : String) :
    MonthBucket :=
  ⟨savingsSum year ts m, interestSum year ts m, expenseSum year ts m⟩

/-- Spec-side: does the transaction contribute to any bucket at all? -/
def qualifies (year : Option String) (t : Transaction) : Bool :=
  passesYear year t
    && ((t.type == "income" && (t.category == "저축" || t.category == "이자"))
      || (t.type == "expense" && t.category == "지출"))

/-- Spec-side: the transactions of the cash-type accounts, in store order. -/
def cashTransactions (accounts : List Account) : List Transaction :=
  (accounts.filter (fun a => a.type == "현금")).flatMap (fun a => a.transactions)

/-- Bucket stored under month key `m` (zero bucket when absent). -/
def lookupBucket (data : List (String × MonthBucket)) (m : String) : MonthBucket :=
  match data.find? (fun e => e.1 == m) with
  | some e => e.2
  | none => ⟨0, 0, 0⟩

/-- Componentwise bucket addition. -/
def bAdd (x y : MonthBucket) : MonthBucket :=
  ⟨x.savings + y.savings, x.interest + y.interest, x.expense + y.expense⟩

/-! ### Order lemmas for the Python string comparison -/

theorem charListLt_asymm :
    ∀ (a b : List Char), charListLt a b = true → charListLt b a = true → False
  | [], [], h1, _ => by simp [charListLt] at h1
  | [], _ :: _, _, h2 => by simp [charListLt] at h2
  | _ :: _, [], h1, _ => by simp [charListLt] at h1
  | x :: xs, y :: ys, h1, h2 => by
    simp only [charListLt] at h1 h2
    rcases lt_trichotomy x y with hxy | hxy | hxy
    · rw [if_neg (lt_asymm hxy), if_pos hxy] at h2
      exact Bool.false_ne_true h2
    · subst hxy
      rw [if_neg (lt_irrefl x), if_neg (lt_irrefl x)] at h1 h2
      exact charListLt_asymm xs ys h1 h2
    · rw [if_neg (lt_asymm hxy), if_pos hxy] at h1
      exact Bool.false_ne_true h1

theorem charListLt_trans :
    ∀ (a b c : List Char), charListLt a b = true → charListLt b c = true →
      charListLt a c = true
  | [], b, c, _, h2 => by
    cases c with
    | nil =>
      exfalso
      cases b with
      | nil => simp [charListLt] at h2
      | cons y ys => simp [charListLt] at h2
    | cons z zs => simp [charListLt]
  | _ :: _, b, [], _, h2 => by
    exfalso
    cases b with
    | nil => simp [charListLt] at h2
    | cons y ys => simp [charListLt] at h2
  | _ :: _, [], _ :: _, h1, _ => by simp [charListLt] at h1
  | x :: xs, y :: ys, z :: zs, h1, h2 => by
    simp only [charListLt] at h1 h2 ⊢
    rcases lt_trichotomy x y with hxy | hxy | hxy
    · rcases lt_trichotomy y z with hyz | hyz | hyz
      · rw [if_pos (lt_trans hxy hyz)]
      · subst hyz
        rw [if_pos hxy]
      · rw [if_neg (lt_asymm hyz), if_pos hyz] at h2
        exact absurd h2 Bool.false_ne_true
    · subst hxy
      rw [if_neg (lt_irrefl x), if_neg (lt_irrefl x)] at h1
      rcases lt_trichotomy x z with hxz | hxz | hxz
      · rw [if_pos hxz]
      · subst hxz
        rw [if_neg (lt_irrefl x), if_neg (lt_irrefl x)] at h2 ⊢
        exact charListLt_trans xs ys zs h1 h2
      · rw [if_neg (lt_asymm hxz), if_pos hxz] at h2
        exact absurd h2 Bool.false_ne_true
    · rw [if_neg (lt_asymm hxy), if_pos hxy] at h1
      exact absurd h1 Bool.false_ne_true

theorem charListLt_conn :
    ∀ (a b : List Char), charListLt a b = false → charListLt b a = false → a = b
  | [], [], _, _ => rfl
  | [], _ :: _, h1, _ => by simp [charListLt] at h1
  | _ :: _, [], _, h2 => by simp [charListLt] at h2
  | x :: xs, y :: ys, h1, h2 => by
    simp only [charListLt] at h1 h2
    rcases lt_trichotomy x y with hxy | hxy | hxy
    · rw [if_pos hxy] at h1
      simp at h1
    · subst hxy
      rw [if_neg (lt_irrefl x), if_neg (lt_irrefl x)] at h1 h2
      rw [charListLt_conn xs ys h1 h2]
    · rw [if_pos hxy] at h2
      simp at h2

theorem strLe_trans (a b c : String) (h1 : strLe a b = true) (h2 : strLe b c = true) :
    strLe a c = true := by
  simp only [strLe, strLt, Bool.not_eq_true'] at h1 h2 ⊢
  by_cases hca : charListLt c.data a.data = true
  · exfalso
    cases hbc : charListLt b.data c.data with
    | true => exact absurd (charListLt_trans _ _ _ hbc hca) (by simp [h1])
    | false => rw [charListLt_conn _ _ hbc h2] at h1; exact absurd hca (by simp [h1])
  · simpa using hca

theorem strLe_total (a b : String) : (strLe a b || strLe b a) = true := by
  simp only [strLe, strLt, Bool.or_eq_true, Bool.not_eq_true']
  by_contra h
  push_neg at h
  obtain ⟨h1, h2⟩ := h
  exact charListLt_asymm _ _ (by simpa using h1) (by simpa using h2)

/-! ### The stable sort: permutation and sortedness -/

theorem perm_insertLe (le : α → α → Bool) (x : α) :
    ∀ (l : List α), (insertLe le x l).Perm (x :: l)
  | [] => List.Perm.refl _
  | y :: ys => by
    simp only [insertLe]
    by_cases h : le x y = true
    · rw [if_pos h]
    · rw [if_neg h]
      exact ((perm_insertLe le x ys).cons y).trans (List.Perm.swap x y ys)

theorem perm_sortLe (le : α → α → Bool) : ∀ (l : List α), (sortLe le l).Perm l
  | [] => List.Perm.refl _
  | a :: l => (perm_insertLe le a (sortLe le l)).trans ((perm_sortLe le l).cons a)

theorem mem_insertLe (le : α → α → Bool) (x : α) (l : List α) (z : α) :
    z ∈ insertLe le x l ↔ z = x ∨ z ∈ l := by
  rw [(perm_insertLe le x l).mem_iff, List.mem_cons]

theorem pairwise_insertLe (le : α → α → Bool)
    (htrans : ∀ a b c, le a b = true → le b c = true → le a c = true)
    (htot : ∀ a b, (le a b || le b a) = true) (x : α) :
    ∀ (l : List α), l.Pairwise (fun a b => le a b = true) →
      (insertLe le x l).Pairwise (fun a b => le a b = true)
  | [], _ => by simp [insertLe]
  | y :: ys, h => by
    rw [List.pairwise_cons] at h
    obtain ⟨hy, hys⟩ := h
    simp only [insertLe]
    by_cases hxy : le x y = true
    · rw [if_pos hxy]
      refine List.Pairwise.cons ?_ (List.Pairwise.cons hy hys)
      intro z hz
      rcases List.mem_cons.mp hz with rfl | hz
      · exact hxy
      · exact htrans x y z hxy (hy z hz)
    · rw [if_neg hxy]
      have hyx : le y x = true := by
        have := htot x y
        simpa [hxy] using this
      refine List.Pairwise.cons ?_ (pairwise_insertLe le htrans htot x ys hys)
      intro z hz
      rcases (mem_insertLe le x ys z).mp hz with rfl | hz
      · exact hyx
      · exact hy z hz

theorem pairwise_sortLe (le : α → α → Bool)
    (htrans : ∀ a b c, le a b = true → le b c = true → le a c = true)
    (htot : ∀ a b, (le a b || le b a) = true) :
    ∀ (l : List α), (sortLe le l).Pairwise (fun a b => le a b = true)
  | [] => by simp [sortLe]
  | a :: l => pairwise_insertLe le htrans htot a (sortLe le l)
      (pairwise_sortLe le htrans htot l)

/-! ### Store lookup lemmas -/

theorem find?_map_pred {α : Type} (l : List α) (g : α → α) (p : α → Bool)
    (hp : ∀ a, p (g a) = p a) : (l.map g).find? p = (l.find? p).map g := by
  rw [List.find?_map]
  congr 1
  have : p ∘ g = p := funext hp
  rw [this]

theorem getAccount_found_id (accounts : List Account) (aid : String) (acc : Account)
    (h : getAccount accounts aid = some acc) : acc.id = aid := by
  have := List.find?_some h
  simpa [beq_iff_eq] using this

theorem getAccount_mapUpdateById (accounts : List Account) (aid : String)
    (f : Account → Account) (hf : ∀ a, a.id = aid → (f a).id = a.id) (k : String) :
    getAccount (mapUpdateById accounts aid f) k =
      (getAccount accounts k).map (fun a => if a.id == aid then f a else a) := by
  unfold getAccount mapUpdateById
  apply find?_map_pred
  intro a
  by_cases ha : a.id = aid
  · simp only [ha, beq_self_eq_true, if_pos]
    rw [hf a ha, ha]
  · simp [ha]

theorem getAccount_mapUpdate_self (accounts : List Account) (aid : String)
    (f : Account → Account) (hf : ∀ a, a.id = aid → (f a).id = a.id) (acc : Account)
    (hfind : getAccount accounts aid = some acc) :
    getAccount (mapUpdateById accounts aid f) aid = some (f acc) := by
  rw [getAccount_mapUpdateById accounts aid f hf aid, hfind]
  have hid := getAccount_found_id accounts aid acc hfind
  simp [hid]

theorem getAccount_mapUpdate_other (accounts : List Account) (aid : String)
    (f : Account → Account) (hf : ∀ a, a.id = aid → (f a).id = a.id) (k : String)
    (hk : k ≠ aid) :
    getAccount (mapUpdateById accounts aid f) k = getAccount accounts k := by
  rw [getAccount_mapUpdateById accounts aid f hf k]
  cases hres : getAccount accounts k with
  | none => rfl
  | some a =>
    have hid := getAccount_found_id accounts k a hres
    simp [hid, hk]

theorem upsert_eq_mapUpdate (accounts : List Account) (aid : String)
    (acc newAcc : Account) (hfind : getAccount accounts aid = some acc)
    (hid : newAcc.id = aid) :
    upsertAccount accounts newAcc = mapUpdateById accounts aid (fun _ => newAcc) := by
  unfold upsertAccount
  have hmem := List.mem_of_find?_eq_some hfind
  have hpred := List.find?_some hfind
  rw [if_pos, hid]
  rw [hid]
  exact List.any_eq_true.mpr ⟨acc, hmem, hpred⟩

theorem getAccount_upsert_self (accounts : List Account) (aid : String)
    (acc newAcc : Account) (hfind : getAccount accounts aid = some acc)
    (hid : newAcc.id = aid) :
    getAccount (upsertAccount accounts newAcc) aid = some newAcc := by
  rw [upsert_eq_mapUpdate accounts aid acc newAcc hfind hid]
  exact getAccount_mapUpdate_self accounts aid _ (fun a ha => by rw [hid, ha]) acc hfind

theorem getAccount_upsert_other (accounts : List Account) (aid : String)
    (acc newAcc : Account) (hfind : getAccount accounts aid = some acc)
    (hid : newAcc.id = aid) (k : String) (hk : k ≠ aid) :
    getAccount (upsertAccount accounts newAcc) k = getAccount accounts k := by
  rw [upsert_eq_mapUpdate accounts aid acc newAcc hfind hid]
  exact getAccount_mapUpdate_other accounts aid _ (fun a ha => by rw [hid, ha]) k hk

/-! ### C1: the trade-pairing engine -/

/-- Claim C1: `get_trade_pairs` processes the account's valuations sorted
ascending by `evaluation_date` in a single pass with a FIFO pending-buy
queue: a buy is pushed and emits no pair; a sell pops the oldest pending buy
and appends the pair, and is silently dropped when the queue is empty; a
valuation peeks at (without popping) the oldest pending buy, removes from
the output the existing pair whose buy leg is that same buy (by id, at the
point of supersession) and appends the new pair, leaving the buy at the
front of the queue; a valuation with an empty queue produces no pair.  The
result is the fold's pair list in append order. -/
theorem getTradePairs_fifo_queue_spec (accounts : List Account) (account_id : String) :
    (∀ acc, getAccount accounts account_id = some acc →
      (get_valuations accounts account_id).Perm acc.valuations ∧
      (get_valuations accounts account_id).Pairwise
        (fun a b => strLe a.evaluation_date b.evaluation_date = true)) ∧
    get_trade_pairs accounts account_id =
      ((get_valuations accounts account_id).foldl tradeStep ⟨[], []⟩).pairs ∧
    (∀ (s : PairState) (v : ValuationRecord), v.transaction_type = "buy" →
      tradeStep s v = ⟨s.pairs, s.unpaired_buys ++ [v]⟩) ∧
    (∀ (s : PairState) (v b : ValuationRecord) (rest : List ValuationRecord),
      v.transaction_type = "sell" → s.unpaired_buys = b :: rest →
      tradeStep s v = ⟨s.pairs ++ [⟨b, v⟩], rest⟩) ∧
    (∀ (s : PairState) (v : ValuationRecord),
      v.transaction_type = "sell" → s.unpaired_buys = [] → tradeStep s v = s) ∧
    (∀ (s : PairState) (v b : ValuationRecord) (rest : List ValuationRecord),
      v.transaction_type = "valuation" → s.unpaired_buys = b :: rest →
      tradeStep s v =
        ⟨(s.pairs.eraseP (fun p => p.buy_valuation.id == b.id)) ++ [⟨b, v⟩],
          b :: rest⟩) ∧
    (∀ (s : PairState) (v : ValuationRecord),
      v.transaction_type = "valuation" → s.unpaired_buys = [] → tradeStep s v = s) := by
  refine ⟨?_, rfl, ?_, ?_, ?_, ?_, ?_⟩
  · intro acc hfind
    unfold get_valuations
    rw [hfind]
    constructor
    · exact perm_sortLe _ _
    · exact pairwise_sortLe _
        (fun a b c => strLe_trans a.evaluation_date b.evaluation_date c.evaluation_date)
        (fun a b => strLe_total a.evaluation_date b.evaluation_date) _
  · intro s v hv
    simp [tradeStep, hv]
  · intro s v b rest hv hq
    simp [tradeStep, hv, hq]
  · intro s v hv hq
    simp [tradeStep, hv, hq]
  · intro s v b rest hv hq
    simp [tradeStep, hv, hq]
  · intro s v hv hq
    simp [tradeStep, hv, hq]

/-- Concrete records for exercising the pairing engine. -/
def mkInvAccount (vs : List ValuationRecord) : Account :=
  ⟨"inv1", "inv", "투자", "#000000", 0, "active", "", [], vs, 0, 0, 0, ""⟩

def c2buy : ValuationRecord := ⟨"v1", "inv1", 100, "2024-01-01T00:00:00Z", "", "buy"⟩

def c2val : ValuationRecord := ⟨"v2", "inv1", 120, "2024-02-01T00:00:00Z", "", "valuation"⟩

def c2sell : ValuationRecord := ⟨"v3", "inv1", 130, "2024-03-01T00:00:00Z", "", "sell"⟩

def c2val2 : ValuationRecord := ⟨"v4", "inv1", 110, "2024-04-01T00:00:00Z", "", "valuation"⟩

def c2buy2 : ValuationRecord := ⟨"v5", "inv1", 90, "2024-05-01T00:00:00Z", "", "buy"⟩

def c2val3 : ValuationRecord := ⟨"v6", "inv1", 95, "2024-06-01T00:00:00Z", "", "valuation"⟩

/-- Witness for C1: the step equations evaluated at concrete states, and the
sortedness/permutation part at a concrete store. -/
theorem getTradePairs_fifo_queue_spec_witness :
    (get_valuations [mkInvAccount [c2val, c2buy]] "inv1").Perm
      (mkInvAccount [c2val, c2buy]).valuations ∧
    (get_valuations [mkInvAccount [c2val, c2buy]] "inv1").Pairwise
      (fun a b => strLe a.evaluation_date b.evaluation_date = true) ∧
    tradeStep ⟨[], []⟩ c2buy = ⟨[], [c2buy]⟩ ∧
    tradeStep ⟨[⟨c2buy, c2val⟩], [c2buy]⟩ c2sell =
      ⟨[⟨c2buy, c2val⟩, ⟨c2buy, c2sell⟩], []⟩ ∧
    tradeStep ⟨[], []⟩ c2sell = ⟨[], []⟩ ∧
    tradeStep ⟨[⟨c2buy, c2val⟩], [c2buy]⟩ c2val2 =
      ⟨[⟨c2buy, c2val2⟩], [c2buy]⟩ ∧
    tradeStep ⟨[], []⟩ c2val = ⟨[], []⟩ :=
  ⟨((getTradePairs_fifo_queue_spec [mkInvAccount [c2val, c2buy]] "inv1").1
      (mkInvAccount [c2val, c2buy]) (by decide)).1,
    ((getTradePairs_fifo_queue_spec [mkInvAccount [c2val, c2buy]] "inv1").1
      (mkInvAccount [c2val, c2buy]) (by decide)).2,
    (getTradePairs_fifo_queue_spec [] "inv1").2.2.1 ⟨[], []⟩ c2buy rfl,
    by
      have h := (getTradePairs_fifo_queue_spec [] "inv1").2.2.2.1
        ⟨[⟨c2buy, c2val⟩], [c2buy]⟩ c2sell c2buy [] rfl rfl
      rw [h]
      decide,
    (getTradePairs_fifo_queue_spec [] "inv1").2.2.2.2.1 ⟨[], []⟩ c2sell rfl rfl,
    by
      have h := (getTradePairs_fifo_queue_spec [] "inv1").2.2.2.2.2.1
        ⟨[⟨c2buy, c2val⟩], [c2buy]⟩ c2val2 c2buy [] rfl rfl
      rw [h]
      decide,
    (getTradePairs_fifo_queue_spec [] "inv1").2.2.2.2.2.2 ⟨[], []⟩ c2val rfl rfl⟩

/-! ### C2: buy → valuation → sell -/

/-- Counterexample to claim C2: on buy → valuation → sell the code returns
TWO pairs, not one — the sell branch never removes the superseded
(buy, valuation) pseudo-pair; only the valuation branch removes pairs. -/
theorem getTradePairs_buy_val_sell_two_pairs :
    get_trade_pairs [mkInvAccount [c2buy, c2val, c2sell]] "inv1" ≠ [⟨c2buy, c2sell⟩] ∧
    (get_trade_pairs [mkInvAccount [c2buy, c2val, c2sell]] "inv1").length = 2 := by
  decide

/-- Claim C2 as amended: on buy → valuation → sell the result is the retained
pseudo-pair followed by the real sell pair; the buy is fully consumed by the
sell, so a later valuation adds nothing until another buy arrives, after
which a valuation pairs with the new buy. -/
theorem getTradePairs_buy_val_sell_amended :
    get_trade_pairs [mkInvAccount [c2buy, c2val, c2sell]] "inv1" =
      [⟨c2buy, c2val⟩, ⟨c2buy, c2sell⟩] ∧
    get_trade_pairs [mkInvAccount [c2buy, c2val, c2sell, c2val2]] "inv1" =
      [⟨c2buy, c2val⟩, ⟨c2buy, c2sell⟩] ∧
    get_trade_pairs [mkInvAccount [c2buy, c2val, c2sell, c2val2, c2buy2, c2val3]] "inv1" =
      [⟨c2buy, c2val⟩, ⟨c2buy, c2sell⟩, ⟨c2buy2, c2val3⟩] := by
  decide

/-! ### C3: real-estate return rate -/

/-- Claim C3: for an investment account with a non-empty valuation list whose
name contains the real-estate marker and which has at least one buy and one
sell record, `return_rate` is (latest-dated sell − earliest-dated buy) /
earliest buy × 100, ignoring all intermediate records, and `0` when the
earliest buy's amount is `0`. -/
theorem return_rate_real_estate_first_buy_last_sell (a : Account)
    (htype : a.type = "투자") (hne : a.valuations ≠ [])
    (hmark : containsSub a.name "부동산" = true)
    (b s : ValuationRecord) (bs ss : List ValuationRecord)
    (hb : a.valuations.filter (fun v => v.transaction_type == "buy") = b :: bs)
    (hs : a.valuations.filter (fun v => v.transaction_type == "sell") = s :: ss) :
    a.return_rate =
      if (pyMinBy (fun v => v.evaluation_date) b bs).evaluated_amount = 0 then 0
      else
        ((pyMaxBy (fun v => v.evaluation_date) s ss).evaluated_amount
            - (pyMinBy (fun v => v.evaluation_date) b bs).evaluated_amount)
          / (pyMinBy (fun v => v.evaluation_date) b bs).evaluated_amount * 100 := by
  have hE : a.valuations.isEmpty = false := by
    cases hv : a.valuations with
    | nil => exact absurd hv hne
    | cons x xs => rfl
  simp only [Account.return_rate, htype, hE, hmark, hb, hs, beq_self_eq_true,
    Bool.not_false, Bool.and_self, if_true]
  by_cases h0 : (pyMinBy (fun v => v.evaluation_date) b bs).evaluated_amount = 0
  · simp [h0]
  · simp [h0]

def c3buy : ValuationRecord := ⟨"r1", "re1", 1000, "2024-01-01T00:00:00Z", "", "buy"⟩

def c3sell : ValuationRecord := ⟨"r2", "re1", 1200, "2024-02-01T00:00:00Z", "", "sell"⟩

def c3buy2 : ValuationRecord := ⟨"r3", "re1", 1300, "2024-03-01T00:00:00Z", "", "buy"⟩

def c3acct : Account :=
  ⟨"re1", "부동산", "투자", "#000000", 0, "active", "", [],
    [c3buy, c3sell, c3buy2], 0, 0, 0, ""⟩

/-- Witness for C3: buy 1000, sell 1200, trailing buy 1300 → 20 percent,
the trailing buy being ignored. -/
theorem return_rate_real_estate_first_buy_last_sell_witness :
    c3acct.return_rate = 20 := by
  have h := return_rate_real_estate_first_buy_last_sell c3acct rfl (by decide)
    (by decide) c3buy c3sell [c3buy2] [] (by decide) (by decide)
  rw [h]
  have hmin : pyMinBy (fun v => v.evaluation_date) c3buy [c3buy2] = c3buy := by decide
  have hmax : pyMaxBy (fun v => v.evaluation_date) c3sell [] = c3sell := by decide
  rw [hmin, hmax]
  norm_num [c3buy, c3sell]

/-! ### C4: the generic branch is unreachable for marker-named accounts -/

def c4val : ValuationRecord := ⟨"v1", "c4", 1200, "2024-01-01T00:00:00Z", "", "valuation"⟩

def c4acct : Account :=
  ⟨"c4", "부동산아파트", "투자", "#000000", 0, "active", "", [], [c4val], 1000, 0, 0, ""⟩

/-- Claim C4 fails on the code (code bug): for an investment account whose
name contains the real-estate marker but which lacks buy or sell records,
the Python `elif` skips the generic `purchase_amount` branch entirely and
falls through to `0.0` — although the code's own comment says such accounts
should use the generic logic, which would give (1200 − 1000)/1000 × 100 = 20
here.  This theorem evaluates the embedded code at that failing input. -/
theorem return_rate_marker_without_trades_is_zero :
    c4acct.type = "투자" ∧ c4acct.valuations ≠ [] ∧
    containsSub c4acct.name "부동산" = true ∧
    c4acct.valuations.filter (fun v => v.transaction_type == "buy") = [] ∧
    c4acct.purchase_amount = 1000 ∧
    (c4acct.latest_valuation.map (fun v => v.evaluated_amount)) = some 1200 ∧
    c4acct.return_rate = 0 := by
  decide

/-! ### C5: add_transaction guards -/

theorem mapUpdate_of_notFound (accounts : List Account) (aid : String)
    (f : Account → Account) (h : getAccount accounts aid = none) :
    mapUpdateById accounts aid f = accounts := by
  unfold getAccount at h
  unfold mapUpdateById
  have hall := List.find?_eq_none.mp h
  have : ∀ a ∈ accounts, (if a.id == aid then f a else a) = a := by
    intro a ha
    have hne : ¬(a.id == aid) = true := hall a ha
    simp only [hne, if_false]
    simp at hne
    simp [hne]
  rw [List.map_congr_left this]
  simp

/-- Claim C5: `add_transaction` fails with NegativeAmount exactly when the
amount is negative (zero is allowed, looser than `Transaction.validate`'s
strict positivity), fails with InvalidKind when the kind is neither income
nor expense, leaves the store untouched on failure, appends the new
transaction to the account when it exists, and silently leaves the store
unchanged when the account id is unknown. -/
theorem add_transaction_guards (accounts : List Account)
    (account_id type_ : String) (amount : Rat) (category memo date newId : String) :
    ((add_transaction accounts account_id type_ amount category memo date newId).1
        = .error .negativeAmount ↔ amount < 0) ∧
    (amount < 0 →
      (add_transaction accounts account_id type_ amount category memo date newId).2
        = accounts) ∧
    (0 ≤ amount →
      ((add_transaction accounts account_id type_ amount category memo date newId).1
          = .error .invalidKind ↔ ¬(type_ = "income" ∨ type_ = "expense"))) ∧
    (0 ≤ amount → ¬(type_ = "income" ∨ type_ = "expense") →
      (add_transaction accounts account_id type_ amount category memo date newId).2
        = accounts) ∧
    (0 ≤ amount → (type_ = "income" ∨ type_ = "expense") →
      ∀ acc, getAccount accounts account_id = some acc →
        (add_transaction accounts account_id type_ amount category memo date newId).1
            = .ok ⟨newId, account_id, type_, amount, category, memo, date, ""⟩ ∧
        getAccount
            (add_transaction accounts account_id type_ amount category memo date newId).2
            account_id
          = some { acc with transactions :=
              acc.transactions ++ [⟨newId, account_id, type_, amount, category, memo, date, ""⟩] } ∧
        (∀ k, k ≠ account_id →
          getAccount
              (add_transaction accounts account_id type_ amount category memo date newId).2 k
            = getAccount accounts k)) ∧
    (0 ≤ amount → (type_ = "income" ∨ type_ = "expense") →
      getAccount accounts account_id = none →
      (add_transaction accounts account_id type_ amount category memo date newId).2
        = accounts) ∧
    (∀ t : Transaction, t.amount = 0 → t.validate = .error .invalidAmount) := by
  have hval : ∀ t : Transaction, t.amount = 0 → t.validate = .error .invalidAmount := by
    intro t ht
    simp [Transaction.validate, ht]
  by_cases hneg : amount < 0
  · have hres : add_transaction accounts account_id type_ amount category memo date newId
        = (.error .negativeAmount, accounts) := by
      simp only [add_transaction, if_pos hneg]
    refine ⟨?_, ?_, ?_, ?_, ?_, ?_, hval⟩
    · rw [hres]
      exact iff_of_true rfl hneg
    · intro _
      rw [hres]
    · intro h0
      exact absurd hneg (not_lt.mpr h0)
    · intro h0 _
      exact absurd hneg (not_lt.mpr h0)
    · intro h0 _ _ _
      exact absurd hneg (not_lt.mpr h0)
    · intro h0 _ _
      exact absurd hneg (not_lt.mpr h0)
  · have h0 : ¬amount < 0 := hneg
    by_cases hk : type_ = "income" ∨ type_ = "expense"
    · have hkb : (type_ == "income" || type_ == "expense") = true := by
        rcases hk with h | h <;> simp [h]
      have hres : add_transaction accounts account_id type_ amount category memo date newId
          = (.ok ⟨newId, account_id, type_, amount, category, memo, date, ""⟩,
              mapUpdateById accounts account_id
                (fun a => { a with transactions := a.transactions
                  ++ [⟨newId, account_id, type_, amount, category, memo, date, ""⟩] })) := by
        simp only [add_transaction, if_neg h0, hkb, Bool.not_true]
        rfl
      refine ⟨?_, fun h => absurd h h0, ?_, ?_, ?_, ?_, hval⟩
      · rw [hres]
        simp [hneg]
      · intro _
        rw [hres]
        simp [hk]
      · intro _ hk'
        exact absurd hk hk'
      · intro _ _ acc hfind
        rw [hres]
        refine ⟨rfl, ?_, ?_⟩
        · exact getAccount_mapUpdate_self accounts account_id
            (fun a => { a with transactions := a.transactions
              ++ [⟨newId, account_id, type_, amount, category, memo, date, ""⟩] })
            (fun a _ => rfl) acc hfind
        · intro k hkk
          exact getAccount_mapUpdate_other accounts account_id
            (fun a => { a with transactions := a.transactions
              ++ [⟨newId, account_id, type_, amount, category, memo, date, ""⟩] })
            (fun a _ => rfl) k hkk
      · intro _ _ hnone
        rw [hres]
        exact mapUpdate_of_notFound accounts account_id _ hnone
    · have hkb : (type_ == "income" || type_ == "expense") = false := by
        push_neg at hk
        simp [hk.1, hk.2]
      have hres : add_transaction accounts account_id type_ amount category memo date newId
          = (.error .invalidKind, accounts) := by
        simp only [add_transaction, if_neg h0, hkb, Bool.not_false, if_true]
      refine ⟨?_, fun h => absurd h h0, ?_, ?_, ?_, ?_, hval⟩
      · rw [hres]
        exact iff_of_false (by simp) h0
      · intro _
        rw [hres]
        simp [hk]
      · intro _ _
        rw [hres]
      · intro _ hk' _ _
        exact absurd hk' hk
      · intro _ _ _
        rw [hres]

def c5acct : Account :=
  ⟨"a1", "wallet", "현금", "#ffffff", 10, "active", "",
    [⟨"t0", "a1", "income", 7, "저축", "", "2024-01-02T00:00:00Z", ""⟩], [], 0, 0, 0, ""⟩

/-- Witness for C5: a zero-amount income transaction is accepted and appended
to the existing account, while a negative amount fails with NegativeAmount
and leaves the store unchanged. -/
theorem add_transaction_guards_witness :
    (add_transaction [c5acct] "a1" "income" 0 "저축" "m" "2024-02-03T00:00:00Z" "t9").1
        = .ok ⟨"t9", "a1", "income", 0, "저축", "m", "2024-02-03T00:00:00Z", ""⟩ ∧
    getAccount (add_transaction [c5acct] "a1" "income" 0 "저축" "m"
        "2024-02-03T00:00:00Z" "t9").2 "a1"
      = some { c5acct with transactions := c5acct.transactions
          ++ [⟨"t9", "a1", "income", 0, "저축", "m", "2024-02-03T00:00:00Z", ""⟩] } ∧
    (add_transaction [c5acct] "a1" "income" (-5) "저축" "m"
        "2024-02-03T00:00:00Z" "t9").1 = .error .negativeAmount ∧
    (add_transaction [c5acct] "a1" "income" (-5) "저축" "m"
        "2024-02-03T00:00:00Z" "t9").2 = [c5acct] := by
  have hok := (add_transaction_guards [c5acct] "a1" "income" 0 "저축" "m"
    "2024-02-03T00:00:00Z" "t9").2.2.2.2.1 (by decide) (Or.inl rfl) c5acct (by decide)
  have hneg := (add_transaction_guards [c5acct] "a1" "income" (-5) "저축" "m"
    "2024-02-03T00:00:00Z" "t9").1.mpr (by decide)
  have hneg2 := (add_transaction_guards [c5acct] "a1" "income" (-5) "저축" "m"
    "2024-02-03T00:00:00Z" "t9").2.1 (by decide)
  exact ⟨hok.1, hok.2.1, hneg, hneg2⟩

/-! ### C6 and C9: add_valuation -/

theorem add_valuation_found_eq (accounts : List Account) (account_id : String)
    (amount : Rat) (date memo transaction_type newId : String) (acc : Account)
    (hfind : getAccount accounts account_id = some acc) (htype : acc.type = "투자") :
    add_valuation accounts account_id amount date memo transaction_type newId
      = (.ok ⟨newId, account_id, amount, date, memo, transaction_type⟩,
          upsertAccount accounts { acc with
            valuations := acc.valuations
              ++ [⟨newId, account_id, amount, date, memo, transaction_type⟩],
            evaluated_amount := amount,
            last_valuation_date := pyTake date 10 }) := by
  unfold add_valuation
  rw [hfind]
  dsimp only
  rw [if_neg (by simp [htype])]

def c6old : ValuationRecord := ⟨"v0", "c6", 1, "2024-06-01T00:00:00Z", "", "valuation"⟩

def c6acct : Account :=
  ⟨"c6", "fund", "투자", "#000000", 0, "active", "", [], [c6old], 0, 0, 1, "2024-06-01"⟩

/-- Claim C6: `add_valuation` fails with AccountNotFound for an unknown id
and with WrongAccountType for a non-investment account; otherwise it appends
the new record and sets the legacy mirror fields to the just-added record's
amount and date (truncated to ten characters) — so adding a record dated
before an existing one leaves the mirrors on the newly added record, not on
the latest-dated one (final, concrete conjunct). -/
theorem add_valuation_errors_and_mirror (accounts : List Account)
    (account_id : String) (amount : Rat) (date memo transaction_type newId : String) :
    (getAccount accounts account_id = none →
      add_valuation accounts account_id amount date memo transaction_type newId
        = (.error .accountNotFound, accounts)) ∧
    (∀ acc, getAccount accounts account_id = some acc → acc.type ≠ "투자" →
      add_valuation accounts account_id amount date memo transaction_type newId
        = (.error .wrongAccountType, accounts)) ∧
    (∀ acc, getAccount accounts account_id = some acc → acc.type = "투자" →
      (add_valuation accounts account_id amount date memo transaction_type newId).1
          = .ok ⟨newId, account_id, amount, date, memo, transaction_type⟩ ∧
      getAccount
          (add_valuation accounts account_id amount date memo transaction_type newId).2
          account_id
        = some { acc with
            valuations := acc.valuations
              ++ [⟨newId, account_id, amount, date, memo, transaction_type⟩],
            evaluated_amount := amount,
            last_valuation_date := pyTake date 10 } ∧
      (∀ k, k ≠ account_id →
        getAccount
            (add_valuation accounts account_id amount date memo transaction_type newId).2 k
          = getAccount accounts k)) ∧
    ((add_valuation [c6acct] "c6" 555 "2023-01-01T00:00:00Z" "" "valuation" "v9").2.map
        (fun a => (a.evaluated_amount, a.last_valuation_date))) = [(555, "2023-01-01")] ∧
    ((add_valuation [c6acct] "c6" 555 "2023-01-01T00:00:00Z" "" "valuation" "v9").2.map
        (fun a => a.latest_valuation.map (fun v => v.evaluated_amount))) = [some 1] := by
  refine ⟨?_, ?_, ?_, by decide, by decide⟩
  · intro hnone
    unfold add_valuation
    rw [hnone]
  · intro acc hfind htype
    unfold add_valuation
    rw [hfind]
    dsimp only
    rw [if_pos htype]
  · intro acc hfind htype
    rw [add_valuation_found_eq accounts account_id amount date memo transaction_type
      newId acc hfind htype]
    have hid : ({ acc with
        valuations := acc.valuations
          ++ [⟨newId, account_id, amount, date, memo, transaction_type⟩],
        evaluated_amount := amount,
        last_valuation_date := pyTake date 10 } : Account).id = account_id :=
      getAccount_found_id accounts account_id acc hfind
    refine ⟨rfl, ?_, ?_⟩
    · exact getAccount_upsert_self accounts account_id acc _ hfind hid
    · intro k hk
      exact getAccount_upsert_other accounts account_id acc _ hfind hid k hk

def c6cash : Account :=
  ⟨"cash9", "wallet", "현금", "#ffffff", 0, "active", "", [], [], 0, 0, 0, ""⟩

def c6store : List Account := [c6cash, c6acct]

/-- Witness for C6: unknown account, wrong account type, and a successful
append on a concrete store. -/
theorem add_valuation_errors_and_mirror_witness :
    add_valuation [] "nope" 5 "2024-01-01T00:00:00Z" "" "buy" "v1"
        = (.error .accountNotFound, []) ∧
    add_valuation c6store "cash9" 5 "2024-01-01T00:00:00Z" "" "buy" "v1"
        = (.error .wrongAccountType, c6store) ∧
    (add_valuation c6store "c6" 5 "2024-01-01T00:00:00Z" "" "buy" "v1").1
        = .ok ⟨"v1", "c6", 5, "2024-01-01T00:00:00Z", "", "buy"⟩ ∧
    getAccount (add_valuation c6store "c6" 5 "2024-01-01T00:00:00Z" "" "buy" "v1").2 "c6"
        = some { c6acct with
            valuations := c6acct.valuations ++ [⟨"v1", "c6", 5, "2024-01-01T00:00:00Z", "", "buy"⟩],
            evaluated_amount := 5,
            last_valuation_date := pyTake "2024-01-01T00:00:00Z" 10 } ∧
    getAccount (add_valuation c6store "c6" 5 "2024-01-01T00:00:00Z" "" "buy" "v1").2 "cash9"
        = getAccount c6store "cash9" := by
  have h1 := (add_valuation_errors_and_mirror [] "nope" 5 "2024-01-01T00:00:00Z" ""
    "buy" "v1").1 (by decide)
  have h2 := (add_valuation_errors_and_mirror c6store "cash9" 5 "2024-01-01T00:00:00Z" ""
    "buy" "v1").2.1 c6cash (by decide) (by decide)
  have h3 := (add_valuation_errors_and_mirror c6store "c6" 5 "2024-01-01T00:00:00Z" ""
    "buy" "v1").2.2.1 c6acct (by decide) rfl
  exact ⟨h1, h2, h3.1, h3.2.1, h3.2.2 "cash9" (by decide)⟩

/-- Claim C9: the service `add_valuation` performs no amount validation: for
an existing investment account it accepts any amount, including a negative
one, appends a record carrying it and mirrors it into `evaluated_amount`,
never calling `ValuationRecord.validate` — whose amount invariant such a
record then violates. -/
theorem add_valuation_skips_validation (accounts : List Account)
    (account_id : String) (amount : Rat) (date memo transaction_type newId : String)
    (acc : Account) (hfind : getAccount accounts account_id = some acc)
    (htype : acc.type = "투자") :
    (add_valuation accounts account_id amount date memo transaction_type newId).1
        = .ok ⟨newId, account_id, amount, date, memo, transaction_type⟩ ∧
    (⟨newId, account_id, amount, date, memo, transaction_type⟩ :
        ValuationRecord).evaluated_amount = amount ∧
    getAccount
        (add_valuation accounts account_id amount date memo transaction_type newId).2
        account_id
      = some { acc with
          valuations := acc.valuations
            ++ [⟨newId, account_id, amount, date, memo, transaction_type⟩],
          evaluated_amount := amount,
          last_valuation_date := pyTake date 10 } ∧
    (amount < 0 →
      (⟨newId, account_id, amount, date, memo, transaction_type⟩ :
          ValuationRecord).validate = .error .invalidAmount) := by
  rw [add_valuation_found_eq accounts account_id amount date memo transaction_type
    newId acc hfind htype]
  have hid : ({ acc with
      valuations := acc.valuations
        ++ [⟨newId, account_id, amount, date, memo, transaction_type⟩],
      evaluated_amount := amount,
      last_valuation_date := pyTake date 10 } : Account).id = account_id :=
    getAccount_found_id accounts account_id acc hfind
  refine ⟨rfl, rfl, ?_, ?_⟩
  · exact getAccount_upsert_self accounts account_id acc _ hfind hid
  · intro hneg
    simp [ValuationRecord.validate, hneg]

/-- Witness for C9: a negative valuation amount (−500) is accepted and
mirrored, and the created record fails its own entity invariant. -/
theorem add_valuation_skips_validation_witness :
    (add_valuation [c6acct] "c6" (-500) "2024-07-01T00:00:00Z" "" "valuation" "v8").1
        = .ok ⟨"v8", "c6", -500, "2024-07-01T00:00:00Z", "", "valuation"⟩ ∧
    getAccount
        (add_valuation [c6acct] "c6" (-500) "2024-07-01T00:00:00Z" "" "valuation" "v8").2
        "c6"
      = some { c6acct with
          valuations := c6acct.valuations
            ++ [⟨"v8", "c6", -500, "2024-07-01T00:00:00Z", "", "valuation"⟩],
          evaluated_amount := -500,
          last_valuation_date := pyTake "2024-07-01T00:00:00Z" 10 } ∧
    (⟨"v8", "c6", -500, "2024-07-01T00:00:00Z", "", "valuation"⟩ :
        ValuationRecord).validate = .error .invalidAmount := by
  have h := add_valuation_skips_validation [c6acct] "c6" (-500) "2024-07-01T00:00:00Z"
    "" "valuation" "v8" c6acct (by decide) rfl
  exact ⟨h.1, h.2.2.1, h.2.2.2 (by decide)⟩

/-! ### C7 and C10: delete_valuation -/

theorem deleteValuationUpdate_eq (account : Account) (valuation_id : String) :
    deleteValuationUpdate account valuation_id =
      match account.valuations.filter (fun v => !(v.id == valuation_id)) with
      | [] => { account with
          valuations := [],
          evaluated_amount := 0,
          last_valuation_date := "" }
      | w :: ws => { account with
          valuations := w :: ws,
          evaluated_amount := (pyMaxBy (fun v => v.evaluation_date) w ws).evaluated_amount,
          last_valuation_date :=
            pyTake (pyMaxBy (fun v => v.evaluation_date) w ws).evaluation_date 10 } := by
  unfold deleteValuationUpdate
  cases hf : account.valuations.filter (fun v => !(v.id == valuation_id)) with
  | nil => simp [Account.latest_valuation, hf]
  | cons w ws => simp [Account.latest_valuation, hf]

theorem deleteValuationUpdate_id (account : Account) (valuation_id : String) :
    (deleteValuationUpdate account valuation_id).id = account.id := by
  rw [deleteValuationUpdate_eq]
  split <;> rfl

theorem delete_valuation_found_eq (accounts : List Account)
    (account_id valuation_id : String) (acc : Account)
    (hfind : getAccount accounts account_id = some acc) :
    delete_valuation accounts account_id valuation_id
      = (.ok (), upsertAccount accounts (deleteValuationUpdate acc valuation_id)) := by
  unfold delete_valuation
  rw [hfind]

def c7only : ValuationRecord := ⟨"w1", "c7", 42, "2024-04-01T00:00:00Z", "", "valuation"⟩

def c7acct : Account :=
  ⟨"c7", "fundB", "투자", "#000000", 0, "active", "", [], [c7only], 0, 0, 42, "2024-04-01"⟩

/-- Claim C7: `delete_valuation` fails with AccountNotFound for an unknown
account id; otherwise it removes the records matching the valuation id and
resets the legacy mirror fields to the remaining list's latest-dated record
(amount, and date truncated to ten characters), or to `0` and `""` when no
valuation remains — in particular deleting the only valuation resets both
mirrors (final, concrete conjunct). -/
theorem delete_valuation_resets_mirror (accounts : List Account)
    (account_id valuation_id : String) :
    (getAccount accounts account_id = none →
      delete_valuation accounts account_id valuation_id
        = (.error .accountNotFound, accounts)) ∧
    (∀ acc, getAccount accounts account_id = some acc →
      (delete_valuation accounts account_id valuation_id).1 = .ok () ∧
      getAccount (delete_valuation accounts account_id valuation_id).2 account_id
        = some (match acc.valuations.filter (fun v => !(v.id == valuation_id)) with
            | [] => { acc with
                valuations := [],
                evaluated_amount := 0,
                last_valuation_date := "" }
            | w :: ws => { acc with
                valuations := w :: ws,
                evaluated_amount :=
                  (pyMaxBy (fun v => v.evaluation_date) w ws).evaluated_amount,
                last_valuation_date :=
                  pyTake (pyMaxBy (fun v => v.evaluation_date) w ws).evaluation_date 10 }) ∧
      (∀ k, k ≠ account_id →
        getAccount (delete_valuation accounts account_id valuation_id).2 k
          = getAccount accounts k)) ∧
    ((delete_valuation [c7acct] "c7" "w1").2.map
        (fun a => (a.valuations, a.evaluated_amount, a.last_valuation_date)))
      = [([], 0, "")] := by
  refine ⟨?_, ?_, by decide⟩
  · intro hnone
    unfold delete_valuation
    rw [hnone]
  · intro acc hfind
    rw [delete_valuation_found_eq accounts account_id valuation_id acc hfind]
    have hid : (deleteValuationUpdate acc valuation_id).id = account_id := by
      rw [deleteValuationUpdate_id]
      exact getAccount_found_id accounts account_id acc hfind
    refine ⟨rfl, ?_, ?_⟩
    · have h := getAccount_upsert_self accounts account_id acc _ hfind hid
      rw [h, deleteValuationUpdate_eq]
    · intro k hk
      exact getAccount_upsert_other accounts account_id acc _ hfind hid k hk

def c7x : ValuationRecord := ⟨"x", "c7b", 7, "2024-05-01T00:00:00Z", "", "valuation"⟩

def c7y : ValuationRecord := ⟨"y", "c7b", 3, "2024-02-01T00:00:00Z", "", "valuation"⟩

def c7bacct : Account :=
  ⟨"c7b", "fundC", "투자", "#000000", 0, "active", "", [], [c7x, c7y], 0, 0, 7, "2024-05-01"⟩

/-- Witness for C7: deleting one of two valuations resets both mirror fields
to the remaining (latest-dated) record's amount and date-only date. -/
theorem delete_valuation_resets_mirror_witness :
    (delete_valuation [c7bacct] "c7b" "x").1 = .ok () ∧
    getAccount (delete_valuation [c7bacct] "c7b" "x").2 "c7b"
      = some { c7bacct with
          valuations := [c7y],
          evaluated_amount := 3,
          last_valuation_date := "2024-02-01" } := by
  have h := (delete_valuation_resets_mirror [c7bacct] "c7b" "x").2.1 c7bacct (by decide)
  refine ⟨h.1, ?_⟩
  rw [h.2.1]
  decide

/-- Claim C10: calling `delete_valuation` with an existing account but a
valuation id matching no record does not fail and leaves the valuation list
unchanged, yet still rewrites the legacy mirror fields — to the latest-dated
remaining record's amount and date-only date, or to `0` / `""` when the list
is empty. -/
theorem delete_valuation_missing_id_rewrites_mirror (accounts : List Account)
    (account_id valuation_id : String) (acc : Account)
    (hfind : getAccount accounts account_id = some acc)
    (hmiss : ∀ v ∈ acc.valuations, v.id ≠ valuation_id) :
    (delete_valuation accounts account_id valuation_id).1 = .ok () ∧
    getAccount (delete_valuation accounts account_id valuation_id).2 account_id
      = some (match acc.valuations with
          | [] => { acc with evaluated_amount := 0, last_valuation_date := "" }
          | w :: ws => { acc with
              evaluated_amount :=
                (pyMaxBy (fun v => v.evaluation_date) w ws).evaluated_amount,
              last_valuation_date :=
                pyTake (pyMaxBy (fun v => v.evaluation_date) w ws).evaluation_date 10 }) ∧
    (∀ k, k ≠ account_id →
      getAccount (delete_valuation accounts account_id valuation_id).2 k
        = getAccount accounts k) := by
  have hfilter : acc.valuations.filter (fun v => !(v.id == valuation_id))
      = acc.valuations := by
    rw [List.filter_eq_self]
    intro v hv
    simpa using hmiss v hv
  rw [delete_valuation_found_eq accounts account_id valuation_id acc hfind]
  have hid : (deleteValuationUpdate acc valuation_id).id = account_id := by
    rw [deleteValuationUpdate_id]
    exact getAccount_found_id accounts account_id acc hfind
  refine ⟨rfl, ?_, ?_⟩
  · have h := getAccount_upsert_self accounts account_id acc _ hfind hid
    rw [h, deleteValuationUpdate_eq, hfilter]
    cases hval : acc.valuations with
    | nil => rfl
    | cons w ws => rfl
  · intro k hk
    exact getAccount_upsert_other accounts account_id acc _ hfind hid k hk

def c10v : ValuationRecord := ⟨"only", "c10", 100, "2024-03-05T00:00:00Z", "", "valuation"⟩

def c10acct : Account :=
  ⟨"c10", "fundD", "투자", "#000000", 0, "active", "", [], [c10v], 0, 0, 999, "zzz"⟩

/-- Witness for C10: deleting a bogus valuation id deletes nothing, yet
rewrites the mirror fields (999, "zzz") to the latest record's (100,
"2024-03-05"). -/
theorem delete_valuation_missing_id_rewrites_mirror_witness :
    (delete_valuation [c10acct] "c10" "nope").1 = .ok () ∧
    getAccount (delete_valuation [c10acct] "c10" "nope").2 "c10"
      = some { c10acct with
          evaluated_amount := 100,
          last_valuation_date := "2024-03-05" } ∧
    c10acct.evaluated_amount = 999 ∧
    c10acct.valuations = [c10v] := by
  have h := delete_valuation_missing_id_rewrites_mirror [c10acct] "c10" "nope" c10acct
    (by decide) (by decide)
  refine ⟨h.1, ?_, by decide, by decide⟩
  rw [h.2.1]
  decide

/-! ### C8: monthly income breakdown -/

theorem bAdd_zero_left (x : MonthBucket) : bAdd ⟨0, 0, 0⟩ x = x := by
  simp [bAdd]

theorem bAdd_zero_right (x : MonthBucket) : bAdd x ⟨0, 0, 0⟩ = x := by
  simp [bAdd]

theorem bAdd_assoc (x y z : MonthBucket) : bAdd (bAdd x y) z = bAdd x (bAdd y z) := by
  simp [bAdd, add_assoc]

theorem lookupBucket_cons (k : String) (b : MonthBucket)
    (rest : List (String × MonthBucket)) (m : String) :
    lookupBucket ((k, b) :: rest) m = if k = m then b else lookupBucket rest m := by
  by_cases h : k = m
  · subst h
    simp [lookupBucket, List.find?_cons]
  · have hb : (k == m) = false := by simp [h]
    simp [lookupBucket, List.find?_cons, hb, h]

theorem lookupBucket_bump :
    ∀ (data : List (String × MonthBucket)) (ym : String)
      (f : MonthBucket → MonthBucket) (m : String),
    lookupBucket (bump data ym f) m =
      if m = ym then f (lookupBucket data ym) else lookupBucket data m
  | [], ym, f, m => by
    rw [bump, lookupBucket_cons]
    by_cases hm : m = ym
    · subst hm
      rw [if_pos rfl, if_pos rfl]
      rfl
    · rw [if_neg (Ne.symm hm), if_neg hm]
  | (k, b) :: rest, ym, f, m => by
    by_cases hk : k = ym
    · subst hk
      rw [bump, if_pos (by simp), lookupBucket_cons]
      by_cases hm : m = k
      · subst hm
        rw [if_pos rfl, if_pos rfl, lookupBucket_cons, if_pos rfl]
      · rw [if_neg (Ne.symm hm), if_neg hm, lookupBucket_cons,
          if_neg (Ne.symm hm)]
    · rw [bump, if_neg (by simp [hk]), lookupBucket_cons]
      by_cases hkm : k = m
      · subst hkm
        rw [if_pos rfl, if_neg hk, lookupBucket_cons, if_pos rfl]
      · rw [if_neg hkm, lookupBucket_bump rest ym f m]
        by_cases hm : m = ym
        · rw [if_pos hm, if_pos hm, lookupBucket_cons,
            if_neg (fun h => hkm (h.trans hm.symm))]
        · rw [if_neg hm, if_neg hm, lookupBucket_cons, if_neg hkm]

theorem mem_keys_bump :
    ∀ (data : List (String × MonthBucket)) (ym : String)
      (f : MonthBucket → MonthBucket) (m : String),
    m ∈ (bump data ym f).map Prod.fst ↔ m ∈ data.map Prod.fst ∨ m = ym
  | [], ym, f, m => by simp [bump]
  | (k, b) :: rest, ym, f, m => by
    by_cases hk : k = ym
    · subst hk
      rw [bump, if_pos (by simp)]
      simp
      tauto
    · rw [bump, if_neg (by simp [hk])]
      simp only [List.map_cons, List.mem_cons, mem_keys_bump rest ym f m]
      tauto

theorem nodup_keys_bump :
    ∀ (data : List (String × MonthBucket)) (ym : String)
      (f : MonthBucket → MonthBucket),
      (data.map Prod.fst).Nodup → ((bump data ym f).map Prod.fst).Nodup
  | [], ym, f, _ => by simp [bump]
  | (k, b) :: rest, ym, f, h => by
    rw [List.map_cons, List.nodup_cons] at h
    obtain ⟨hk, hrest⟩ := h
    by_cases hky : k = ym
    · subst hky
      rw [bump, if_pos (by simp)]
      rw [List.map_cons, List.nodup_cons]
      exact ⟨hk, hrest⟩
    · rw [bump, if_neg (by simp [hky])]
      rw [List.map_cons, List.nodup_cons]
      refine ⟨?_, nodup_keys_bump rest ym f hrest⟩
      rw [mem_keys_bump rest ym f k]
      rintro (hmem | rfl)
      · exact hk hmem
      · exact hky rfl

theorem savingsSum_nil (year : Option String) (m : String) :
    savingsSum year [] m = 0 := rfl

theorem interestSum_nil (year : Option String) (m : String) :
    interestSum year [] m = 0 := rfl

theorem expenseSum_nil (year : Option String) (m : String) :
    expenseSum year [] m = 0 := rfl

theorem specBucket_nil (year : Option String) (m : String) :
    specBucket year [] m = ⟨0, 0, 0⟩ := rfl

theorem savingsSum_cons (year : Option String) (t : Transaction)
    (ts : List Transaction) (m : String) :
    savingsSum year (t :: ts) m =
      (if (passesYear year t && (pyTake t.date 7 == m) && (t.type == "income")
          && (t.category == "저축")) = true then t.amount else 0)
        + savingsSum year ts m := by
  rw [savingsSum, List.filter_cons]
  split
  · rw [List.map_cons, List.sum_cons]
    rfl
  · rw [zero_add]
    rfl

theorem interestSum_cons (year : Option String) (t : Transaction)
    (ts : List Transaction) (m : String) :
    interestSum year (t :: ts) m =
      (if (passesYear year t && (pyTake t.date 7 == m) && (t.type == "income")
          && (t.category == "이자")) = true then t.amount else 0)
        + interestSum year ts m := by
  rw [interestSum, List.filter_cons]
  split
  · rw [List.map_cons, List.sum_cons]
    rfl
  · rw [zero_add]
    rfl

theorem expenseSum_cons (year : Option String) (t : Transaction)
    (ts : List Transaction) (m : String) :
    expenseSum year (t :: ts) m =
      (if (passesYear year t && (pyTake t.date 7 == m) && (t.type == "expense")
          && (t.category == "지출")) = true then t.amount else 0)
        + expenseSum year ts m := by
  rw [expenseSum, List.filter_cons]
  split
  · rw [List.map_cons, List.sum_cons]
    rfl
  · rw [zero_add]
    rfl

theorem specBucket_singleton (year : Option String) (t : Transaction) (m : String) :
    specBucket year [t] m =
      ⟨if (passesYear year t && (pyTake t.date 7 == m) && (t.type == "income")
            && (t.category == "저축")) = true then t.amount else 0,
        if (passesYear year t && (pyTake t.date 7 == m) && (t.type == "income")
            && (t.category == "이자")) = true then t.amount else 0,
        if (passesYear year t && (pyTake t.date 7 == m) && (t.type == "expense")
            && (t.category == "지출")) = true then t.amount else 0⟩ := by
  simp only [specBucket, savingsSum_cons, interestSum_cons, expenseSum_cons,
    savingsSum_nil, interestSum_nil, expenseSum_nil, add_zero]

theorem lookupBucket_step (year : Option String) (data : List (String × MonthBucket))
    (t : Transaction) (m : String) :
    lookupBucket (breakdownStep year data t) m
      = bAdd (lookupBucket data m) (specBucket year [t] m) := by
  rw [specBucket_singleton]
  by_cases hskip : (match year with
      | some y => !(pyStartsWith (pyTake t.date 7) y)
      | none => false) = true
  · have hpass : passesYear year t = false := by
      cases year with
      | none => simp at hskip
      | some y =>
        rw [Bool.not_eq_true'] at hskip
        simp [passesYear, hskip]
    simp only [breakdownStep]
    rw [if_pos hskip]
    simp [hpass, bAdd]
  · rw [Bool.not_eq_true] at hskip
    simp only [breakdownStep]
    rw [if_neg (by simp [hskip])]
    by_cases hinc : (t.type == "income") = true
    · rw [beq_iff_eq] at hinc
      rw [if_pos (by simp [hinc])]
      by_cases hsav : (t.category == "저축") = true
      · rw [beq_iff_eq] at hsav
        rw [if_pos (by simp [hsav]), lookupBucket_bump]
        have hpass : passesYear year t = true := by
          cases year with
          | none => rfl
          | some y => simpa [passesYear] using hskip
        by_cases hm : m = pyTake t.date 7
        · rw [if_pos hm]
          have hb : (pyTake t.date 7 == m) = true := by simp [hm]
          simp [hpass, hb, hinc, hsav, bAdd, hm]
        · rw [if_neg hm]
          have hb : (pyTake t.date 7 == m) = false := by simp [Ne.symm hm]
          simp [hb, bAdd]
      · by_cases hint : (t.category == "이자") = true
        · rw [beq_iff_eq] at hint
          rw [if_neg (by simp [hint]), if_pos (by simp [hint]), lookupBucket_bump]
          have hpass : passesYear year t = true := by
            cases year with
            | none => rfl
            | some y => simpa [passesYear] using hskip
          by_cases hm : m = pyTake t.date 7
          · rw [if_pos hm]
            have hb : (pyTake t.date 7 == m) = true := by simp [hm]
            simp [hpass, hb, hinc, hint, bAdd, hm]
          · rw [if_neg hm]
            have hb : (pyTake t.date 7 == m) = false := by simp [Ne.symm hm]
            simp [hb, bAdd]
        · rw [Bool.not_eq_true] at hsav hint
          rw [if_neg (by simp [hsav]), if_neg (by simp [hint])]
          have hexp : (t.type == "expense") = false := by simp [hinc]
          simp [hsav, hint, hexp, bAdd]
    · rw [Bool.not_eq_true] at hinc
      rw [if_neg (by simp [hinc])]
      by_cases hes : (t.type == "expense" && t.category == "지출") = true
      · rw [Bool.and_eq_true] at hes
        obtain ⟨hexp, hspend⟩ := hes
        rw [beq_iff_eq] at hexp hspend
        rw [if_pos (by simp [hexp, hspend]), lookupBucket_bump]
        have hpass : passesYear year t = true := by
          cases year with
          | none => rfl
          | some y => simpa [passesYear] using hskip
        by_cases hm : m = pyTake t.date 7
        · rw [if_pos hm]
          have hb : (pyTake t.date 7 == m) = true := by simp [hm]
          simp [hpass, hb, hexp, hspend, hinc, bAdd, hm]
        · rw [if_neg hm]
          have hb : (pyTake t.date 7 == m) = false := by simp [Ne.symm hm]
          simp [hb, bAdd]
      · rw [Bool.not_eq_true] at hes
        rw [if_neg (by simp [hes])]
        have hand : (t.type == "expense" && t.category == "지출") = false := hes
        simp only [Bool.and_eq_false_iff] at hand
        rcases hand with hand | hand
        · simp [hinc, hand, bAdd]
        · simp [hinc, hand, bAdd]

theorem specBucket_cons (year : Option String) (t : Transaction)
    (ts : List Transaction) (m : String) :
    specBucket year (t :: ts) m = bAdd (specBucket year [t] m) (specBucket year ts m) := by
  rw [specBucket_singleton]
  simp only [specBucket, savingsSum_cons, interestSum_cons, expenseSum_cons, bAdd]

theorem specBucket_append (year : Option String) (xs ys : List Transaction) (m : String) :
    specBucket year (xs ++ ys) m
      = bAdd (specBucket year xs m) (specBucket year ys m) := by
  simp only [specBucket, savingsSum, interestSum, expenseSum, List.filter_append,
    List.map_append, List.sum_append, bAdd]

theorem lookupBucket_foldl_txns :
    ∀ (ts : List Transaction) (year : Option String)
      (data : List (String × MonthBucket)) (m : String),
    lookupBucket (ts.foldl (breakdownStep year) data) m
      = bAdd (lookupBucket data m) (specBucket year ts m)
  | [], year, data, m => by
    rw [List.foldl_nil, specBucket_nil, bAdd_zero_right]
  | t :: ts, year, data, m => by
    rw [List.foldl_cons, lookupBucket_foldl_txns ts year (breakdownStep year data t) m,
      lookupBucket_step, bAdd_assoc, ← specBucket_cons]

theorem breakdownStep_shape (year : Option String)
    (data : List (String × MonthBucket)) (t : Transaction) :
    breakdownStep year data t = data ∨
    ∃ f, breakdownStep year data t = bump data (pyTake t.date 7) f := by
  simp only [breakdownStep]
  split_ifs
  · exact Or.inl rfl
  · exact Or.inr ⟨_, rfl⟩
  · exact Or.inr ⟨_, rfl⟩
  · exact Or.inl rfl
  · exact Or.inr ⟨_, rfl⟩
  · exact Or.inl rfl

theorem nodup_keys_step (year : Option String) (data : List (String × MonthBucket))
    (t : Transaction) (h : (data.map Prod.fst).Nodup) :
    ((breakdownStep year data t).map Prod.fst).Nodup := by
  rcases breakdownStep_shape year data t with heq | ⟨f, heq⟩
  · rw [heq]
    exact h
  · rw [heq]
    exact nodup_keys_bump data (pyTake t.date 7) f h

theorem nodup_keys_foldl_txns :
    ∀ (ts : List Transaction) (year : Option String)
      (data : List (String × MonthBucket)),
    (data.map Prod.fst).Nodup →
      (((ts.foldl (breakdownStep year) data)).map Prod.fst).Nodup
  | [], year, data, h => h
  | t :: ts, year, data, h => by
    rw [List.foldl_cons]
    exact nodup_keys_foldl_txns ts year (breakdownStep year data t)
      (nodup_keys_step year data t h)

theorem mem_keys_step (year : Option String) (data : List (String × MonthBucket))
    (t : Transaction) (m : String) :
    m ∈ (breakdownStep year data t).map Prod.fst ↔
      m ∈ data.map Prod.fst ∨ (qualifies year t = true ∧ pyTake t.date 7 = m) := by
  by_cases hskip : (match year with
      | some y => !(pyStartsWith (pyTake t.date 7) y)
      | none => false) = true
  · have hpass : passesYear year t = false := by
      cases year with
      | none => simp at hskip
      | some y =>
        rw [Bool.not_eq_true'] at hskip
        simp [passesYear, hskip]
    have hq : qualifies year t = false := by simp [qualifies, hpass]
    simp only [breakdownStep]
    rw [if_pos hskip]
    simp [hq]
  · rw [Bool.not_eq_true] at hskip
    have hpass : passesYear year t = true := by
      cases year with
      | none => rfl
      | some y => simpa [passesYear] using hskip
    simp only [breakdownStep]
    rw [if_neg (by simp [hskip])]
    by_cases hinc : (t.type == "income") = true
    · rw [beq_iff_eq] at hinc
      rw [if_pos (by simp [hinc])]
      by_cases hsav : (t.category == "저축") = true
      · rw [beq_iff_eq] at hsav
        rw [if_pos (by simp [hsav]), mem_keys_bump]
        have hq : qualifies year t = true := by simp [qualifies, hpass, hinc, hsav]
        simp [hq, eq_comm]
      · by_cases hint : (t.category == "이자") = true
        · rw [beq_iff_eq] at hint
          rw [if_neg (by simp [hint]), if_pos (by simp [hint]), mem_keys_bump]
          have hq : qualifies year t = true := by simp [qualifies, hpass, hinc, hint]
          simp [hq, eq_comm]
        · rw [Bool.not_eq_true] at hsav hint
          rw [if_neg (by simp [hsav]), if_neg (by simp [hint])]
          have hq : qualifies year t = false := by
            simp [qualifies, hpass, hinc, hsav, hint]
          simp [hq]
    · rw [Bool.not_eq_true] at hinc
      rw [if_neg (by simp [hinc])]
      by_cases hes : (t.type == "expense" && t.category == "지출") = true
      · rw [if_pos hes, mem_keys_bump]
        rw [Bool.and_eq_true] at hes
        obtain ⟨hexp, hspend⟩ := hes
        rw [beq_iff_eq] at hexp hspend
        have hq : qualifies year t = true := by
          simp [qualifies, hpass, hexp, hspend]
        simp [hq, eq_comm]
      · rw [Bool.not_eq_true] at hes
        rw [if_neg (by simp [hes])]
        have hq : qualifies year t = false := by
          simp only [Bool.and_eq_false_iff] at hes
          rcases hes with hes | hes
          · simp [qualifies, hinc, hes]
          · simp [qualifies, hinc, hes]
        simp [hq]

theorem mem_keys_foldl_txns :
    ∀ (ts : List Transaction) (year : Option String)
      (data : List (String × MonthBucket)) (m : String),
    m ∈ ((ts.foldl (breakdownStep year) data)).map Prod.fst ↔
      m ∈ data.map Prod.fst
        ∨ ∃ t ∈ ts, qualifies year t = true ∧ pyTake t.date 7 = m
  | [], year, data, m => by simp
  | t :: ts, year, data, m => by
    rw [List.foldl_cons, mem_keys_foldl_txns ts year (breakdownStep year data t) m,
      mem_keys_step]
    simp only [List.mem_cons]
    constructor
    · rintro ((hm | ⟨hq, hd⟩) | ⟨u, hu, hq, hd⟩)
      · exact Or.inl hm
      · exact Or.inr ⟨t, Or.inl rfl, hq, hd⟩
      · exact Or.inr ⟨u, Or.inr hu, hq, hd⟩
    · rintro (hm | ⟨u, (rfl | hu), hq, hd⟩)
      · exact Or.inl (Or.inl hm)
      · exact Or.inl (Or.inr ⟨hq, hd⟩)
      · exact Or.inr ⟨u, hu, hq, hd⟩

theorem cashTransactions_cons (a : Account) (accs : List Account) :
    cashTransactions (a :: accs) =
      if (a.type == "현금") = true then a.transactions ++ cashTransactions accs
      else cashTransactions accs := by
  by_cases hc : (a.type == "현금") = true
  · simp [cashTransactions, List.filter_cons, hc]
  · rw [Bool.not_eq_true] at hc
    simp [cashTransactions, List.filter_cons, hc]

theorem lookupBucket_foldl_accounts :
    ∀ (accs : List Account) (year : Option String)
      (data : List (String × MonthBucket)) (m : String),
    lookupBucket (accs.foldl (fun d a =>
        if a.type == "현금" then a.transactions.foldl (breakdownStep year) d else d)
      data) m
      = bAdd (lookupBucket data m) (specBucket year (cashTransactions accs) m)
  | [], year, data, m => by
    rw [List.foldl_nil]
    have : cashTransactions [] = [] := rfl
    rw [this, specBucket_nil, bAdd_zero_right]
  | a :: accs, year, data, m => by
    simp only [List.foldl_cons]
    rw [cashTransactions_cons]
    by_cases hc : (a.type == "현금") = true
    · rw [if_pos hc, if_pos hc,
        lookupBucket_foldl_accounts accs year _ m, lookupBucket_foldl_txns,
        specBucket_append, bAdd_assoc]
    · rw [Bool.not_eq_true] at hc
      rw [if_neg (by simp [hc]), if_neg (by simp [hc]),
        lookupBucket_foldl_accounts accs year data m]

theorem nodup_keys_foldl_accounts :
    ∀ (accs : List Account) (year : Option String)
      (data : List (String × MonthBucket)),
    (data.map Prod.fst).Nodup →
      ((accs.foldl (fun d a =>
          if a.type == "현금" then a.transactions.foldl (breakdownStep year) d else d)
        data).map Prod.fst).Nodup
  | [], year, data, h => h
  | a :: accs, year, data, h => by
    simp only [List.foldl_cons]
    by_cases hc : (a.type == "현금") = true
    · rw [if_pos hc]
      exact nodup_keys_foldl_accounts accs year _ (nodup_keys_foldl_txns _ year data h)
    · rw [Bool.not_eq_true] at hc
      rw [if_neg (by simp [hc])]
      exact nodup_keys_foldl_accounts accs year data h

theorem mem_keys_foldl_accounts :
    ∀ (accs : List Account) (year : Option String)
      (data : List (String × MonthBucket)) (m : String),
    m ∈ ((accs.foldl (fun d a =>
        if a.type == "현금" then a.transactions.foldl (breakdownStep year) d else d)
      data).map Prod.fst) ↔
      m ∈ data.map Prod.fst
        ∨ ∃ t ∈ cashTransactions accs, qualifies year t = true ∧ pyTake t.date 7 = m
  | [], year, data, m => by
    rw [List.foldl_nil]
    have : cashTransactions [] = [] := rfl
    simp [this]
  | a :: accs, year, data, m => by
    simp only [List.foldl_cons]
    rw [cashTransactions_cons]
    by_cases hc : (a.type == "현금") = true
    · rw [if_pos hc, if_pos hc, mem_keys_foldl_accounts accs year _ m,
        mem_keys_foldl_txns]
      constructor
      · rintro ((hm | ⟨u, hu, hq, hd⟩) | ⟨u, hu, hq, hd⟩)
        · exact Or.inl hm
        · exact Or.inr ⟨u, List.mem_append.mpr (Or.inl hu), hq, hd⟩
        · exact Or.inr ⟨u, List.mem_append.mpr (Or.inr hu), hq, hd⟩
      · rintro (hm | ⟨u, hu, hq, hd⟩)
        · exact Or.inl (Or.inl hm)
        · rcases List.mem_append.mp hu with hu | hu
          · exact Or.inl (Or.inr ⟨u, hu, hq, hd⟩)
          · exact Or.inr ⟨u, hu, hq, hd⟩
    · rw [Bool.not_eq_true] at hc
      rw [if_neg (by simp [hc]), if_neg (by simp [hc]),
        mem_keys_foldl_accounts accs year data m]

theorem find?_eq_head?_filter {α : Type} (p : α → Bool) :
    ∀ l : List α, l.find? p = (l.filter p).head?
  | [] => rfl
  | x :: xs => by
    rw [List.find?_cons, List.filter_cons]
    cases hp : p x with
    | false =>
      simp only [hp, Bool.false_eq_true, if_false]
      exact find?_eq_head?_filter p xs
    | true => simp [hp]

theorem length_filter_key_le_one (l : List (String × MonthBucket)) (m : String)
    (h : (l.map Prod.fst).Nodup) :
    (l.filter (fun e => e.1 == m)).length ≤ 1 := by
  cases hf : l.filter (fun e => e.1 == m) with
  | nil => simp
  | cons x xs =>
    cases xs with
    | nil => simp
    | cons y ys =>
      exfalso
      have hsub : ((l.filter (fun e => e.1 == m)).map Prod.fst).Sublist
          (l.map Prod.fst) := (List.filter_sublist l).map _
      have hnd := List.Nodup.sublist hsub h
      rw [hf] at hnd
      have hx : (x.1 == m) = true := by
        have hmem : x ∈ l.filter (fun e => e.1 == m) := by
          rw [hf]
          exact List.mem_cons_self _ _
        exact (List.mem_filter.mp hmem).2
      have hy : (y.1 == m) = true := by
        have hmem : y ∈ l.filter (fun e => e.1 == m) := by
          rw [hf]
          exact List.mem_cons_of_mem _ (List.mem_cons_self _ _)
        exact (List.mem_filter.mp hmem).2
      rw [beq_iff_eq] at hx hy
      rw [List.map_cons, List.map_cons, List.nodup_cons] at hnd
      exact hnd.1 (by rw [hx, hy]; exact List.mem_cons_self _ _)

theorem find?_key_eq_of_perm (l l' : List (String × MonthBucket))
    (hp : l.Perm l') (hn : (l.map Prod.fst).Nodup) (m : String) :
    l.find? (fun e => e.1 == m) = l'.find? (fun e => e.1 == m) := by
  rw [find?_eq_head?_filter, find?_eq_head?_filter]
  have hpf := hp.filter (fun e => e.1 == m)
  have hlen := length_filter_key_le_one l m hn
  cases hf : l.filter (fun e => e.1 == m) with
  | nil =>
    rw [hf] at hpf
    rw [List.perm_nil.mp hpf.symm]
  | cons x xs =>
    rw [hf] at hpf hlen
    cases xs with
    | nil =>
      rw [List.perm_singleton.mp hpf.symm]
    | cons y ys => simp at hlen

theorem lookupBucket_of_perm (l l' : List (String × MonthBucket))
    (hp : l.Perm l') (hn : (l.map Prod.fst).Nodup) (m : String) :
    lookupBucket l m = lookupBucket l' m := by
  unfold lookupBucket
  rw [find?_key_eq_of_perm l l' hp hn m]

theorem str_eq_of_data_eq {a b : String} (h : a.data = b.data) : a = b := by
  cases a
  cases b
  exact congrArg String.mk h

theorem strLt_of_strLe_of_ne (a b : String) (hle : strLe a b = true) (hne : a ≠ b) :
    strLt a b = true := by
  by_cases hab : strLt a b = true
  · exact hab
  · exfalso
    rw [Bool.not_eq_true] at hab
    have h1 : charListLt a.data b.data = false := by simpa [strLt] using hab
    have h2 : charListLt b.data a.data = false := by
      have := hle
      rw [strLe, Bool.not_eq_true'] at this
      simpa [strLt] using this
    exact hne (str_eq_of_data_eq (charListLt_conn a.data b.data h1 h2))

def c8txn : Transaction :=
  ⟨"t1", "c8", "income", 50, "저축", "", "2023-12-31T00:00:00Z", ""⟩

def c8acct : Account :=
  ⟨"c8", "cash", "현금", "#ffffff", 0, "active", "", [c8txn], [], 0, 0, 0, ""⟩

/-- Claim C8: `monthly_income_breakdown` considers only cash-type accounts'
transactions, buckets them by the `YYYY-MM` prefix of their date, adds
income/savings amounts to the savings bucket, income/interest amounts to the
interest bucket and expense/spending amounts to the expense bucket, ignores
every other kind/category combination, filters to months starting with the
given year prefix when one is supplied (final conjunct: a savings
transaction dated 2023-12-31 yields nothing under the year "2024"), and
returns the buckets sorted strictly ascending by month key, with exactly
the months having at least one qualifying transaction as keys. -/
theorem monthly_income_breakdown_spec (accounts : List Account) (year : Option String) :
    (monthly_income_breakdown accounts year).Pairwise
        (fun a b => strLt a.1 b.1 = true) ∧
    (∀ m, lookupBucket (monthly_income_breakdown accounts year) m
        = specBucket year (cashTransactions accounts) m) ∧
    (∀ m, m ∈ (monthly_income_breakdown accounts year).map Prod.fst ↔
        ∃ t ∈ cashTransactions accounts,
          qualifies year t = true ∧ pyTake t.date 7 = m) ∧
    monthly_income_breakdown [c8acct] (some "2024") = [] := by
  have htrans : ∀ (a b c : String × MonthBucket),
      strLe a.1 b.1 = true → strLe b.1 c.1 = true → strLe a.1 c.1 = true :=
    fun a b c => strLe_trans a.1 b.1 c.1
  have htot : ∀ (a b : String × MonthBucket),
      (strLe a.1 b.1 || strLe b.1 a.1) = true :=
    fun a b => strLe_total a.1 b.1
  set D := accounts.foldl (fun d a =>
    if a.type == "현금" then a.transactions.foldl (breakdownStep year) d else d)
    ([] : List (String × MonthBucket)) with hD
  have hmono : monthly_income_breakdown accounts year
      = sortLe (fun a b : String × MonthBucket => strLe a.1 b.1) D := rfl
  have hndD : (D.map Prod.fst).Nodup :=
    nodup_keys_foldl_accounts accounts year [] (by simp)
  have hperm : (sortLe (fun a b : String × MonthBucket => strLe a.1 b.1) D).Perm D :=
    perm_sortLe _ D
  have hndS : ((sortLe (fun a b : String × MonthBucket => strLe a.1 b.1) D).map
      Prod.fst).Nodup := ((hperm.map Prod.fst).symm).nodup hndD
  refine ⟨?_, ?_, ?_, by decide⟩
  · have hpair := pairwise_sortLe
      (fun a b : String × MonthBucket => strLe a.1 b.1) htrans htot D
    have hne : (sortLe (fun a b : String × MonthBucket => strLe a.1 b.1) D).Pairwise
        (fun a b => a.1 ≠ b.1) := List.pairwise_map.mp hndS
    rw [hmono]
    exact (hpair.and hne).imp (fun h => strLt_of_strLe_of_ne _ _ h.1 h.2)
  · intro m
    rw [hmono, lookupBucket_of_perm _ D hperm hndS m, hD,
      lookupBucket_foldl_accounts accounts year [] m]
    have hz : lookupBucket [] m = ⟨0, 0, 0⟩ := rfl
    rw [hz, bAdd_zero_left]
  · intro m
    rw [hmono]
    have hmem : m ∈ (sortLe (fun a b : String × MonthBucket => strLe a.1 b.1) D).map
        Prod.fst ↔ m ∈ D.map Prod.fst := (hperm.map Prod.fst).mem_iff
    rw [hmem, hD, mem_keys_foldl_accounts accounts year [] m]
    simp

end MoneyReport
